import Mathlib

/-!
# Verification of the `zensols.mimic` section-segmentation core

A shallow embedding of the section-segmentation engine of the `plandes/mimic`
repository, together with proofs of the specification's claims about it.

Embedded source files:
* `src/python/zensols/mimic/note.py` — `Section`, `SectionContainer`,
  `GapSectionContainer`, `Note`
* `src/zensols/mimic/regexnote.py` — `RegexNote._get_sections` and the
  per-category regular-expression matchers
* `src/python/zensols/mimic/domain.py` — `MimicContainer`, `NoteEvent`
* `src/python/zensols/mimic/tokenizer.py` and `src/zensols/mimic/tokenizer.py`
  — `MimicTokenDecorator.decorate`

Python strings are modelled as `List Char` (character offsets, as in Python);
machine integers are `Int`/`Nat` (no overflow is relevant here).  The
`LexicalSpan` span algebra is provided by the external `zensols.nlp` package;
its operations are modelled from the specification (section 4.1), as marked on
each definition.
-/

namespace Mimic

/-! ## Span algebra (`zensols.nlp.LexicalSpan`)

Modelled from the spec: the `LexicalSpan` type and its `overlaps`, `widen` and
`gaps` operations live in the external `zensols.nlp` package (imported by
`note.py`), not in this repository; the spec (sections 3 and 4.1) defines them
precisely and they are reproduced here from those words. -/

/-- Modelled from the spec: `(begin, end)` half-open character offsets
(`zensols.nlp.LexicalSpan`); field `b` is `begin` and `e` is `end`. -/
structure LexicalSpan where
  b : Nat
  e : Nat
deriving DecidableEq, Repr

/-- Modelled from the spec: comparisons order spans by `(begin, end)`
lexicographically (spec section 3: "comparisons order by `(begin, end)`").
Used as the key ordering for Python's stable `sort`. -/
def spanLE (a c : LexicalSpan) : Bool :=
  a.b < c.b || (a.b == c.b && a.e ≤ c.e)

/-- The span ordering as a decidable relation.  Python's `sort`/`sorted` is a
stable sort; it is modelled throughout by `List.insertionSort`, which is also
stable, so both compute the same permutation for a total preorder key. -/
def spanLEP (a c : LexicalSpan) : Prop := spanLE a c = true

instance : DecidableRel spanLEP := fun a c => by
  unfold spanLEP; infer_instance

instance : IsTotal LexicalSpan spanLEP :=
  ⟨by
    intro a c
    simp only [spanLEP, spanLE, Bool.or_eq_true, Bool.and_eq_true,
      decide_eq_true_eq, beq_iff_eq]
    omega⟩

instance : IsTrans LexicalSpan spanLEP :=
  ⟨by
    intro a c d
    simp only [spanLEP, spanLE, Bool.or_eq_true, Bool.and_eq_true,
      decide_eq_true_eq, beq_iff_eq]
    omega⟩

/-- Modelled from the spec: `overlaps(a, b)` is true iff
`a.begin < b.end and b.begin < a.end` (spec section 4.1, half-open semantics). -/
def overlaps (a c : LexicalSpan) : Prop :=
  a.b < c.e ∧ c.b < a.e

instance (a c : LexicalSpan) : Decidable (overlaps a c) := by
  unfold overlaps; infer_instance

/-- Membership of a character offset in a half-open span. -/
def memSpan (i : Nat) (s : LexicalSpan) : Prop :=
  s.b ≤ i ∧ i < s.e

instance (i : Nat) (s : LexicalSpan) : Decidable (memSpan i s) := by
  unfold memSpan; infer_instance

/-- Modelled from the spec: `widen` returns `(min(begin), max(end))` over a
non-empty sequence (spec section 4.1).  Here the sequence is given as a head
plus a tail, so emptiness cannot arise (the `EmptyInputError` branch is
unreachable at the one call site, `Section.lexspan`). -/
def widen (s : LexicalSpan) (rest : List LexicalSpan) : LexicalSpan :=
  rest.foldl (fun acc t => ⟨min acc.b t.b, max acc.e t.e⟩) s

/-- Two spans in non-overlapping left-to-right position: the first ends at or
before the second begins. -/
def chainRel (a c : LexicalSpan) : Prop := a.e ≤ c.b

/-- The recursive walk underlying `gaps`: given the spans already sorted by
`begin` and a cursor `p`, emit the uncovered stretch before each span (when
non-empty) and finally the trailing stretch up to `L` (when non-empty). -/
def gapsWalk (p L : Nat) : List LexicalSpan → List LexicalSpan
  | [] => if p < L then [⟨p, L⟩] else []
  | s :: rest => (if p < s.b then [⟨p, s.b⟩] else []) ++ gapsWalk s.e L rest

/-- Modelled from the spec: `gaps(spans, end)` sorts the (assumed pairwise
non-overlapping) spans by `begin`, and returns the complementary spans covering
`[0, end)` not covered by any input span, including a leading gap from 0 and a
trailing gap to `end`, omitting zero-length gaps (spec section 4.1). -/
def gaps (spans : List LexicalSpan) (L : Nat) : List LexicalSpan :=
  gapsWalk 0 L (List.insertionSort spanLEP spans)

/-! ## `Section` (note.py, class `Section`) -/

/-- The fields of `note.py`'s `Section` dataclass that the segmentation logic
reads and writes: `id`, `name`, `header_spans`, `body_span`, and the
`original_id` attribute added by `GapSectionContainer._get_sections` (absent,
i.e. `none`, until gap-filling assigns it).  The transient collaborator
handles (`container` back-reference, document stash, paragraph factory) carry
no segmentation state and are not modelled; the note text a section indexes
into is passed explicitly where needed. -/
structure Sec where
  id : Int
  name : List Char
  header_spans : List LexicalSpan
  body_span : LexicalSpan
  original_id : Option Int := none
deriving DecidableEq, Repr

/-- Python whitespace for `str.strip`: space, tab, newline, carriage return,
vertical tab, form feed (the ASCII whitespace stripped by `str.strip()`). -/
def pyIsSpace (c : Char) : Bool :=
  c = ' ' || c = '\t' || c = '\n' || c = '\r' || c = '\x0b' || c = '\x0c'

/-- Python `text[s.begin:s.end]` slicing on a `List Char` text (Python slices
clamp out-of-range indices, as `drop`/`take` do). -/
def slice (txt : List Char) (s : LexicalSpan) : List Char :=
  (txt.drop s.b).take (s.e - s.b)

/-- Python `str.lstrip()`. -/
def pyLStrip (t : List Char) : List Char := t.dropWhile pyIsSpace

/-- Python `str.rstrip()`. -/
def pyRStrip (t : List Char) : List Char := (t.reverse.dropWhile pyIsSpace).reverse

/-- Python `str.strip()`. -/
def pyStrip (t : List Char) : List Char := pyLStrip (pyRStrip t)

/-- Whether `c` is one of the characters of the class `[_/ ]` in the
name-normalization regex of `Section.__post_init__` (note.py line 136). -/
def isNameSep (c : Char) : Bool := c = '_' || c = '/' || c = ' '

/-- The recursion behind `subNameSeps`: the flag records whether the previous
character belonged to a `[_/ ]` run (whose hyphen has already been emitted). -/
def subNameSepsAux : Bool → List Char → List Char
  | _, [] => []
  | inRun, c :: rest =>
      if isNameSep c then
        if inRun then subNameSepsAux true rest
        else '-' :: subNameSepsAux true rest
      else c :: subNameSepsAux false rest

/-- `re.sub(r'[_/ ]+', '-', header)` (note.py line 136): every maximal run of
underscores, slashes and spaces is replaced by a single hyphen. -/
def subNameSeps (l : List Char) : List Char :=
  subNameSepsAux false l

/-- `' '.join(headers)` (note.py line 135). -/
def joinSpace (parts : List (List Char)) : List Char :=
  (parts.intersperse [' ']).flatten

/-- `Section.__post_init__` (note.py lines 129-136): when `name` is `None`,
infer it — `"unknown"` if there are no headers, otherwise the space-joined
header texts with `[_/ ]+` runs collapsed to `-`, lowercased.  The header
texts are the slices of the owning container's note text at `header_spans`
(property `Section.headers`).  Construction performs no other computation and
has no failure path. -/
def sectionInit (id : Int) (name : Option (List Char))
    (header_spans : List LexicalSpan) (body_span : LexicalSpan)
    (note_text : List Char) : Sec :=
  { id := id
    name :=
      match name with
      | some n => n
      | none =>
          if header_spans.length = 0 then "unknown".data
          else
            (subNameSeps
              (joinSpace (header_spans.map (slice note_text)))).map Char.toLower
    header_spans := header_spans
    body_span := body_span }

/-- `Section.lexspan` (note.py lines 195-200): `LexicalSpan.widen` over the
body span followed by the header spans. -/
def lexspan (s : Sec) : LexicalSpan :=
  widen s.body_span s.header_spans

/-- `Section.body` (note.py lines 150-153): the note text sliced at the body
span. -/
def body (s : Sec) (note_text : List Char) : List Char :=
  slice note_text s.body_span

/-- `Section.is_empty` (note.py lines 218-221): no headers and the stripped
body text is empty. -/
def isEmptySec (s : Sec) (note_text : List Char) : Bool :=
  s.header_spans.length = 0 && (pyStrip (body s note_text)).length = 0

/-! ## `SectionContainer` (note.py, class `SectionContainer`)

A `SectionContainer` is abstract over `_get_sections`; every derived view is a
function of the section list that `_get_sections` produced, so the views are
embedded as functions of that list. -/

/-- The `sections` property (note.py lines 378-385): the Python dict built by
`{sec.id: sec for sec in secs}` as an association list — a repeated id keeps
its first position but takes the later section (Python dict semantics). -/
def sectionsDict (secs : List Sec) : List (Int × Sec) :=
  secs.foldl
    (fun m s =>
      if (m.map Prod.fst).contains s.id then
        m.map (fun kv => if kv.1 = s.id then (kv.1, s) else kv)
      else m ++ [(s.id, s)])
    []

/-- The ordering of `sorted(..., key=lambda t: t[0])` on dict items: by the
integer key. -/
def keyLE (a c : Int × Sec) : Prop := a.1 ≤ c.1

instance : DecidableRel keyLE := fun a c => by
  unfold keyLE; infer_instance

instance : IsTotal (Int × Sec) keyLE := ⟨fun a c => Int.le_total a.1 c.1⟩

instance : IsTrans (Int × Sec) keyLE :=
  ⟨fun _ _ _ h1 h2 => Int.le_trans h1 h2⟩

/-- The ordering of `sorted(..., key=lambda s: s.lexspan)` on sections. -/
def secSpanLE (a c : Sec) : Prop := spanLEP (lexspan a) (lexspan c)

instance : DecidableRel secSpanLE := fun a c => by
  unfold secSpanLE; infer_instance

instance : IsTotal Sec secSpanLE :=
  ⟨fun a c => IsTotal.total (r := spanLEP) (lexspan a) (lexspan c)⟩

instance : IsTrans Sec secSpanLE :=
  ⟨fun _ _ _ h1 h2 => IsTrans.trans (r := spanLEP) _ _ _ h1 h2⟩

/-- The `sections_ordered` property (note.py lines 387-392):
`sorted(self.sections.items(), key=lambda t: t[0])` — the dict items sorted by
their *key* (the section id) — then the second tuple component of each. -/
def sectionsOrdered (secs : List Sec) : List Sec :=
  (List.insertionSort keyLE (sectionsDict secs)).map Prod.snd

/-- `SectionContainer.__iter__` (note.py lines 593-594):
`sorted(self.sections.values(), key=lambda s: s.lexspan)`. -/
def containerIter (secs : List Sec) : List Sec :=
  List.insertionSort secSpanLE ((sectionsDict secs).map Prod.snd)

/-! ## `Note._get_sections` and `RegexNote._get_sections` -/

/-- `Note._get_sections` (note.py lines 656-660): the whole-note default — one
section with id 0, name `DEFAULT_SECTION_NAME = 'default'`, no headers, and a
body span covering the entire note text. -/
def noteGetSections (note_text : List Char) : List Sec :=
  [sectionInit 0 (some "default".data) [] ⟨0, note_text.length⟩ note_text]

/-- A Python `re.Match` of one of the two-group section patterns: `s`/`e` are
`m.start()`/`m.end()`, `s1`/`e1` are `m.start(1)`/`m.end(1)` (the header
group) and `s2`/`e2` are `m.start(2)`/`m.end(2)` (the body group). -/
structure RMatch where
  s : Nat
  e : Nat
  s1 : Nat
  e1 : Nat
  s2 : Nat
  e2 : Nat
deriving DecidableEq, Repr

/-- `RegexNote._get_sections` (regexnote.py lines 27-50), as a function of the
match list returned by the subclass's `_get_matches` on the extended text
`self.text + '\n\n'`: matches whose *whole* span is empty
(`m.end() - m.start() > 0` fails) are filtered out; each survivor becomes one
`Section` with sequential ids from 0, `name=None` (inferred from the header
group slice), header span = group 1 and body span = group 2; if no match
survives, fall back to `super()._get_sections()`, the whole-note default. -/
def regexNoteSections (ms : List RMatch) (note_text : List Char) :
    List Sec :=
  let survivors := ms.filter (fun m => 0 < m.e - m.s)
  let secs := survivors.enum.map
    (fun im =>
      sectionInit (Int.ofNat im.1) none [⟨im.2.s1, im.2.e1⟩]
        ⟨im.2.s2, im.2.e2⟩ note_text)
  if secs.isEmpty then noteGetSections note_text else secs

/-! ## `GapSectionContainer._get_sections` (note.py lines 612-641) -/

/-- The synthetic section built for one gap span
(note.py lines 625-630): `Section(id=-1, name=None, header_spans=(),
body_span=gs)`; with no headers the inferred name is `"unknown"`. -/
def mkGapSec (note_text : List Char) (gs : LexicalSpan) : Sec :=
  sectionInit (-1) none [] gs note_text

/-- The gap sections surviving the `filter_empty` test (note.py
lines 624-634): for each gap a synthetic section, skipped when
`filter_empty` is set and the section `is_empty`. -/
def gapSecList (del : List Sec) (note_text : List Char)
    (filterEmpty : Bool) : List Sec :=
  ((gaps (del.map lexspan) note_text.length).map (mkGapSec note_text)).filter
    (fun s => !(filterEmpty && isEmptySec s note_text))

/-- The combined clone-plus-gap list after `sections.sort(key=lambda s:
s.lexspan)` (note.py lines 612-636) and before renumbering.  `clone()` is a
shallow copy re-wiring only transient collaborator handles
(note.py lines 237-245), so on the modelled fields it is the identity. -/
def gapMerged (del : List Sec) (note_text : List Char)
    (filterEmpty : Bool) : List Sec :=
  List.insertionSort secSpanLE (del ++ gapSecList del note_text filterEmpty)

/-- `GapSectionContainer._get_sections` (note.py lines 612-641): when the
delegate has no sections the (empty) clone list is returned as is; otherwise
gaps are filled, the result sorted by `lexspan`, and ids renumbered `0..n-1`
with each section's previous id recorded as `original_id`. -/
def gapSections (del : List Sec) (note_text : List Char)
    (filterEmpty : Bool) : List Sec :=
  if del.isEmpty then del
  else
    (gapMerged del note_text filterEmpty).enum.map
      (fun is => { is.2 with original_id := some is.2.id, id := Int.ofNat is.1 })

/-! ## `MimicContainer` / `NoteEvent` construction (domain.py) -/

/-- The error taxonomy relevant to construction (domain.py lines 18-37):
`RecordNotFoundError` and the plain application-level `MimicError`. -/
inductive MErr where
  | recordNotFound
  | mimicError
deriving DecidableEq, Repr

/-- `MimicContainer.__post_init__` (domain.py lines 49-52): raises
`RecordNotFoundError` when `row_id` is null. -/
def mimicContainerInit (row_id : Option Int) : Except MErr Unit :=
  if row_id.isNone then .error .recordNotFound else .ok ()

/-- The fields of `NoteEvent` that its `__post_init__` touches. -/
structure NoteEventRec where
  row_id : Option Int
  hadm_id : Option Int
  category : List Char
  text : List Char
deriving DecidableEq, Repr

/-- `NoteEvent.__post_init__` (domain.py lines 359-365): first
`super().__post_init__()` (the `MimicContainer` null-`row_id` check), then a
plain `MimicError` when `hadm_id` is null, then `category.strip()` and
`text.rstrip()`. -/
def noteEventInit (row_id hadm_id : Option Int) (category text : List Char) :
    Except MErr NoteEventRec := do
  mimicContainerInit row_id
  if hadm_id.isNone then throw .mimicError
  else
    pure { row_id := row_id, hadm_id := hadm_id,
           category := pyStrip category, text := pyRStrip text }

/-- `Section.__post_init__` (note.py lines 129-136) performs only name
inference: it validates no row identifier (the transient `_row_id` is assigned
only later by `_copy_resources` or `_trans_context_update`) and has no raise
path.  The unused `rowIdCtx` argument records the row-identifier context of
the construction site. -/
def sectionConstruct (rowIdCtx : Option Int) (id : Int)
    (name : Option (List Char)) (header_spans : List LexicalSpan)
    (body_span : LexicalSpan) (note_text : List Char) : Except MErr Sec :=
  let _ := rowIdCtx
  .ok (sectionInit id name header_spans body_span note_text)

/-! ## The per-category regex patterns (regexnote.py)

The matchers delegate to Python's `re.finditer`, an external engine.  Each of
the seven compiled two-group patterns is abstracted by the *necessary*
structural conditions any of its matches satisfies, read off the pattern text:
the whole match contains group 1, then a separator of at least `sepMin`
characters (the literal `:` plus the following whitespace/space requirement),
then group 2, then a terminator of at least `termMin` characters (the
`\n{2,}`-style tail). -/

/-- The shape of one two-group section pattern: at least `sepMin` characters
separate the end of group 1 from the start of group 2, and at least `termMin`
characters follow the end of group 2 inside the whole match. -/
structure RegexShape where
  sepMin : Nat
  termMin : Nat
deriving DecidableEq, Repr

/-- `DischargeSummaryNote._SECTION_REGEX['header']` (regexnote.py line 61):
`([a-zA-Z ]+):\n+(.+?)\n{2,}` — separator `:` + `\n+` (≥ 2), terminator
`\n{2,}` (≥ 2). -/
def dischargeHeaderShape : RegexShape := ⟨2, 2⟩

/-- `DischargeSummaryNote._SECTION_REGEX['para']` (regexnote.py line 62):
`([A-Z ]+):[ ]{2,}(.+?)\n{2,}` — separator `:` + `[ ]{2,}` (≥ 3), terminator
`\n{2,}` (≥ 2). -/
def dischargeParaShape : RegexShape := ⟨3, 2⟩

/-- `NursingOtherNote._SECTION_REGEX['para']` (regexnote.py line 78):
`([a-zA-Z ]+):[ ](.+?)\n{2,}` — separator `:` + one space (≥ 2), terminator
`\n{2,}` (≥ 2). -/
def nursingParaShape : RegexShape := ⟨2, 2⟩

/-- `EchoNote._SECTION_REGEX['para']` (regexnote.py lines 90-94):
`(...):[\n ]+(.+?)\n{2,}` — separator `:` + `[\n ]+` (≥ 2), terminator
`\n{2,}` (≥ 2). -/
def echoParaShape : RegexShape := ⟨2, 2⟩

/-- `PhysicianNote._SECTION_REGEX['header']` (regexnote.py lines 106-109):
`[ ]{3}(...):?\n(.+?)\n[ ]{3}[a-zA-Z0-9/ ]+:` — separator `:?` + `\n` (≥ 1),
terminator `\n` + `[ ]{3}` + `[a-zA-Z0-9/ ]+` + `:` (≥ 6). -/
def physicianHeaderShape : RegexShape := ⟨1, 6⟩

/-- `RadiologyNote._SECTION_REGEX['para']` (regexnote.py line 121):
`\s*([A-Z ]+):[\n ]{2,}(.+?)\n{2,}` — separator `:` + `[\n ]{2,}` (≥ 3),
terminator `\n{2,}` (≥ 2). -/
def radiologyParaShape : RegexShape := ⟨3, 2⟩

/-- `ConsultNote._SECTION_REGEX['header']` (regexnote.py line 137):
`\s*([a-zA-Z/ ]+):\n+(.+?)(?:[\n]{2,}|\s+\.\n)` — separator `:` + `\n+` (≥ 2),
terminator `[\n]{2,}` (2) or `\s+\.\n` (≥ 3), so ≥ 2. -/
def consultHeaderShape : RegexShape := ⟨2, 2⟩

/-- All seven configured section patterns. -/
def mimicShapes : List RegexShape :=
  [dischargeHeaderShape, dischargeParaShape, nursingParaShape, echoParaShape,
   physicianHeaderShape, radiologyParaShape, consultHeaderShape]

/-- Necessary conditions on a `re.finditer` match of a two-group pattern of
shape `sh` over a text of length `extLen` (here always the note text with two
newlines appended): groups are well-formed and nested left to right inside the
whole match, with the shape's separator and terminator widths between and
after them, and the match lies inside the text. -/
def finditerValid (sh : RegexShape) (extLen : Nat) (m : RMatch) : Prop :=
  m.s ≤ m.s1 ∧ m.s1 ≤ m.e1 ∧ m.e1 + sh.sepMin ≤ m.s2 ∧ m.s2 ≤ m.e2 ∧
    m.e2 + sh.termMin ≤ m.e ∧ m.e ≤ extLen

instance (sh : RegexShape) (extLen : Nat) (m : RMatch) :
    Decidable (finditerValid sh extLen m) := by
  unfold finditerValid; infer_instance

/-! ## `MimicTokenDecorator.decorate` (tokenizer.py)

The two repository copies of `MimicTokenDecorator.decorate`
(`src/python/zensols/mimic/tokenizer.py` lines 116-145 and
`src/zensols/mimic/tokenizer.py` lines 118-150) differ only in the token
feature label for a redaction placeholder (`'pseudo'` vs `'mask'`) and in the
token argument; the control flow is identical.  The decorator is embedded with
its default configuration: `token_entities` as in the field default
(tokenizer.py lines 85-93) and `token_replacements = ()`. -/

/-- The token state `decorate` reads and writes: the mutable normalized form
`norm`, and the `mimic_` and `onto_` features it assigns. -/
structure Token where
  norm : List Char
  mimic : List Char
  onto : List Char
deriving DecidableEq, Repr

/-- `zensols.nlp.FeatureToken.NONE`, the none-feature marker constant. -/
def featureNone : List Char := "-<N>-".data

/-- `MASK_REGEX = re.compile(r'\[\*\*([^\*]+)\*\*\]')` applied with
`pat.match` (anchored at the start): the text must begin with `[**`, then a
non-empty maximal run of non-`*` characters (group 1; a shorter run cannot be
followed by the required `*`), then `**]`.  Returns group 1 on success. -/
def maskMatch (t : List Char) : Option (List Char) :=
  match t with
  | '[' :: '*' :: '*' :: rest =>
      let inner := rest.takeWhile (fun c => c ≠ '*')
      if inner.isEmpty then none
      else
        match rest.drop inner.length with
        | '*' :: '*' :: ']' :: _ => some inner
        | _ => none
  | _ => none

/-- `SEP_REGEX = re.compile(r'(_{5,}|[*]{5,}|[-]{5,})')` applied with
`pat.match`: the text begins with at least five underscores, asterisks or
hyphens. -/
def sepMatch (t : List Char) : Bool :=
  5 ≤ (t.takeWhile (fun c => c = '_')).length ||
  5 ≤ (t.takeWhile (fun c => c = '*')).length ||
  5 ≤ (t.takeWhile (fun c => c = '-')).length

/-- `re.compile(r'^First Name')` with `regex.match`. -/
def firstNameMatch (t : List Char) : Bool :=
  "First Name".data.isPrefixOf t

/-- `re.compile(r'^Last Name')` with `regex.match`. -/
def lastNameMatch (t : List Char) : Bool :=
  "Last Name".data.isPrefixOf t

/-- Python's `$` anchor at position `p`: the end of the text, or just before
a single trailing newline. -/
def pyDollar (t : List Char) (p : Nat) : Bool :=
  p = t.length || (p + 1 = t.length && t.drop p = ['\n'])

/-- A run of one or two digits starting the remainder `r`, matching Python's
greedy `\d{1,2}` followed by the continuation `k` (which begins with a
non-digit, so the greedy run length is forced to the full digit run). Returns
the rest after the digits, or `none` when the run is empty or longer than 2. -/
def digits12 (r : List Char) : Option (List Char) :=
  let run := r.takeWhile Char.isDigit
  if run.length = 1 || run.length = 2 then some (r.drop run.length) else none

/-- `re.compile(r'^21\d{2}-\d{1,2}-\d{1,2}$')` with `regex.match`: `21`, two
digits, `-`, one or two digits, `-`, one or two digits, then `$`.  Because
each `\d{1,2}` is followed by a non-digit (`-` or `$`), greedy matching
succeeds exactly when the maximal digit runs have the stated lengths. -/
def dateMatch (t : List Char) : Bool :=
  match t with
  | '2' :: '1' :: d1 :: d2 :: '-' :: rest =>
      d1.isDigit && d2.isDigit &&
        (match digits12 rest with
         | some ('-' :: rest2) =>
             match digits12 rest2 with
             | some tail => pyDollar t (t.length - tail.length)
             | none => false
         | _ => false)
  | _ => false

/-- The compiled default `token_entities` (tokenizer.py lines 85-93) after
`_compile_regexes`: pattern, replacement entity, and the Onto Notes symbol
recorded in `onto_mapping`. -/
def tokenEntities : List ((List Char → Bool) × List Char × List Char) :=
  [(firstNameMatch, "FIRSTNAME".data, "PERSON".data),
   (lastNameMatch, "LASTNAME".data, "PERSON".data),
   (dateMatch, "DATE".data, "DATE".data)]

/-- The inner entity loop of `decorate` (tokenizer.py lines 129-133): the
first entity pattern matching the mask's inner text wins; on a hit the
normalized form becomes the replacement and `oid` the `onto_mapping` value. -/
def entityLookup : List ((List Char → Bool) × List Char × List Char) →
    List Char → Option (List Char × List Char)
  | [], _ => none
  | (pat, repl, onto) :: rest, inner =>
      if pat inner then some (repl, onto) else entityLookup rest inner

/-- `MimicTokenDecorator.decorate` (tokenizer.py lines 116-145 /
118-150) under the default configuration: try `_REGEXES` in order — the mask
pattern first, then the separator pattern; on a mask hit set the token
feature to `'mask'`, rewrite `norm` to `<UNKNOWN>` and then to the first
matching entity replacement; on a separator hit set the feature to
`'separator'`; otherwise set the feature to the none marker (the default
`token_replacements` is empty).  Finally always assign the `onto_` feature. -/
def decorate (tok : Token) : Token :=
  match maskMatch tok.norm with
  | some inner =>
      match entityLookup tokenEntities inner with
      | some (repl, onto) =>
          { tok with mimic := "mask".data, norm := repl, onto := onto }
      | none =>
          { tok with mimic := "mask".data, norm := "<UNKNOWN>".data,
                     onto := featureNone }
  | none =>
      if sepMatch tok.norm then
        { tok with mimic := "separator".data, onto := featureNone }
      else
        { tok with mimic := featureNone, onto := featureNone }

/-! ## Helper lemmas -/

/-- The head surviving a `dropWhile` fails the dropped predicate. -/
theorem head?_dropWhile_false {α : Type} {p : α → Bool} :
    ∀ (l : List α) (a : α), (l.dropWhile p).head? = some a → p a = false := by
  intro l
  induction l with
  | nil => intro a h; simp [List.dropWhile] at h
  | cons x xs ih =>
      intro a h
      by_cases hx : p x
      · rw [List.dropWhile_cons_of_pos hx] at h
        exact ih a h
      · rw [List.dropWhile_cons_of_neg hx] at h
        simp at h
        subst h
        simpa using hx

/-- A non-empty suffix has the same last element as the whole list. -/
theorem getLast?_of_suffix {α : Type} {l m : List α} (h : l <:+ m) {a : α}
    (hl : l.getLast? = some a) : m.getLast? = some a := by
  obtain ⟨s, rfl⟩ := h
  rw [List.getLast?_append, hl]
  rfl

/-- The last character of a right-stripped string is not whitespace. -/
theorem getLast?_pyRStrip (t : List Char) (a : Char)
    (h : (pyRStrip t).getLast? = some a) : pyIsSpace a = false := by
  unfold pyRStrip at h
  rw [List.getLast?_reverse] at h
  exact head?_dropWhile_false _ _ h

/-- The first character of a stripped string is not whitespace. -/
theorem head?_pyStrip (t : List Char) (a : Char)
    (h : (pyStrip t).head? = some a) : pyIsSpace a = false :=
  head?_dropWhile_false _ _ h

/-- The last character of a stripped string is not whitespace. -/
theorem getLast?_pyStrip (t : List Char) (a : Char)
    (h : (pyStrip t).getLast? = some a) : pyIsSpace a = false :=
  getLast?_pyRStrip t a
    (getLast?_of_suffix (List.dropWhile_suffix pyIsSpace) h)

/-! ## Claim theorems -/

/-- Claim C6: a `Section` constructed with `name=None` gets name `"unknown"`
when it has no headers, and otherwise the space-joined header text with runs
of `[_/ ]` collapsed to a hyphen, lowercased; header text
`"Discharge Medications"` yields `"discharge-medications"`. -/
theorem section_name_inference (txt : List Char) (hs bs : LexicalSpan) (i : Int)
    (hslice : slice txt hs = "Discharge Medications".data) :
    (sectionInit i none [hs] bs txt).name = "discharge-medications".data ∧
    (sectionInit i none [] bs txt).name = "unknown".data := by
  constructor
  · show (subNameSeps (joinSpace ([hs].map (slice txt)))).map Char.toLower = _
    rw [List.map_cons, List.map_nil, hslice]
    decide
  · rfl

/-- Witness for C6 at a concrete note text and header span. -/
theorem section_name_inference_witness :
    (sectionInit 0 none [⟨0, 21⟩] ⟨22, 23⟩
      "Discharge Medications:x".data).name = "discharge-medications".data :=
  (section_name_inference "Discharge Medications:x".data ⟨0, 21⟩ ⟨22, 23⟩ 0
    (by decide)).1

/-- Claim C7 counterexample: constructing a `Section` in a null
row-identifier context raises nothing — `Section.__post_init__`
(note.py lines 129-136) contains no row-id check (the transient `_row_id` is
assigned only after construction), so the construction succeeds instead of
signalling `RecordNotFoundError`. -/
theorem section_construct_null_row_ok :
    (sectionConstruct none 0 none [] ⟨0, 0⟩ []).isOk = true ∧
    sectionConstruct none 0 none [] ⟨0, 0⟩ [] ≠ .error .recordNotFound := by
  constructor
  · rfl
  · intro h
    simp [sectionConstruct] at h

/-- Claim C7 as amended: the null-identifier construction error belongs to
`MimicContainer.__post_init__` (domain.py lines 49-52) — shared by `NoteEvent`
and `Note` — which raises `RecordNotFoundError` immediately on a null
`row_id`; `Section` construction itself performs no row-id validation and
always succeeds. -/
theorem null_row_id_construction (h : Option Int) (c t : List Char) :
    mimicContainerInit none = .error .recordNotFound ∧
    noteEventInit none h c t = .error .recordNotFound ∧
    (∀ (rid : Option Int) (i : Int) (nm : Option (List Char))
        (hs : List LexicalSpan) (bs : LexicalSpan) (txt : List Char),
      (sectionConstruct rid i nm hs bs txt).isOk = true) := by
  refine ⟨rfl, ?_, fun _ _ _ _ _ _ => rfl⟩
  simp [noteEventInit, mimicContainerInit, Except.bind]
  rfl

/-- Claim C10: a successfully constructed `NoteEvent` has a fully stripped
category and a right-stripped text (no trailing whitespace), and construction
with a null `hadm_id` always errors (domain.py lines 359-365). -/
theorem note_event_init_strips (r h : Option Int) (c t : List Char)
    (ne : NoteEventRec) (hok : noteEventInit r h c t = .ok ne) :
    (∀ a, ne.category.head? = some a → pyIsSpace a = false) ∧
    (∀ a, ne.category.getLast? = some a → pyIsSpace a = false) ∧
    (∀ a, ne.text.getLast? = some a → pyIsSpace a = false) ∧
    (∀ ne' : NoteEventRec, noteEventInit r none c t ≠ .ok ne') := by
  have hne : ne.category = pyStrip c ∧ ne.text = pyRStrip t := by
    cases r with
    | none =>
        rw [show noteEventInit none h c t = Except.error .recordNotFound
          from rfl] at hok
        exact absurd hok (by simp)
    | some rv =>
        cases h with
        | none =>
            rw [show noteEventInit (some rv) none c t =
              Except.error .mimicError from rfl] at hok
            exact absurd hok (by simp)
        | some hv =>
            rw [show noteEventInit (some rv) (some hv) c t =
              Except.ok ⟨some rv, some hv, pyStrip c, pyRStrip t⟩
              from rfl] at hok
            rw [show ne = ⟨some rv, some hv, pyStrip c, pyRStrip t⟩ by
              injection hok with h2; exact h2.symm]
            exact ⟨rfl, rfl⟩
  refine ⟨?_, ?_, ?_, ?_⟩
  · intro a ha; rw [hne.1] at ha; exact head?_pyStrip c a ha
  · intro a ha; rw [hne.1] at ha; exact getLast?_pyStrip c a ha
  · intro a ha; rw [hne.2] at ha; exact getLast?_pyRStrip t a ha
  · intro ne' hcon
    cases r with
    | none =>
        rw [show noteEventInit none none c t = Except.error .recordNotFound
          from rfl] at hcon
        exact absurd hcon (by simp)
    | some rv =>
        rw [show noteEventInit (some rv) none c t =
          Except.error .mimicError from rfl] at hcon
        exact absurd hcon (by simp)

/-- Witness for C10: `NoteEvent` construction at `category = " Echo "` and
`text = " note \n"` succeeds, and the stripped text's last character `'e'` is
not whitespace. -/
theorem note_event_init_strips_witness : pyIsSpace 'e' = false :=
  (note_event_init_strips (some 1) (some 2) " Echo ".data " note \n".data
    ⟨some 1, some 2, "Echo".data, " note".data⟩ rfl).2.2.1 'e' (by decide)

/-- Claim C2: `RegexNote._get_sections` always yields at least one section,
and when no regex match survives the filter it yields exactly the whole-note
default — one section with id 0, name `"default"`, an empty header-span
tuple, and a body span covering the entire note text (regexnote.py
lines 27-50, note.py lines 656-660).  Proved for every note text, hence in
particular for non-empty ones. -/
theorem regex_sections_fallback (ms : List RMatch) (txt : List Char) :
    1 ≤ (regexNoteSections ms txt).length ∧
    (ms.filter (fun m => 0 < m.e - m.s) = [] →
      regexNoteSections ms txt =
        [{ id := 0, name := "default".data, header_spans := [],
           body_span := ⟨0, txt.length⟩, original_id := none }]) := by
  unfold regexNoteSections
  by_cases hf : ms.filter (fun m => 0 < m.e - m.s) = []
  · rw [hf]
    exact ⟨by simp [noteGetSections], fun _ => by simp [noteGetSections]; rfl⟩
  · constructor
    · have hlen : (ms.filter (fun m => 0 < m.e - m.s)).length ≠ 0 := by
        simpa [List.length_eq_zero] using hf
      simp only [List.isEmpty_iff, List.map_eq_nil_iff, List.enum_eq_nil]
      rw [if_neg hf]
      simpa [Nat.one_le_iff_ne_zero] using hlen
    · intro hcon; exact absurd hcon hf

/-- Witness for C2: no matches at all on the text `"ab"` produce the single
default section. -/
theorem regex_sections_fallback_witness :
    regexNoteSections [] "ab".data =
      [{ id := 0, name := "default".data, header_spans := [],
         body_span := ⟨0, "ab".data.length⟩, original_id := none }] :=
  (regex_sections_fallback [] "ab".data).2 rfl

/-- Claim C3 counterexample: the filter in `RegexNote._get_sections`
(regexnote.py line 31) tests the length of the *whole* match span
(`m.end() - m.start() > 0`), not of group 2 — so a match with whole span
`[0, 5)` but zero-length body group `[3, 3)` survives and becomes a
`Section`, contradicting the claim that zero-length group-2 matches are
discarded. -/
theorem zero_body_match_becomes_section :
    (regexNoteSections [⟨0, 5, 0, 2, 3, 3⟩] "ab:cd".data).map
        (fun s => s.body_span) = [⟨3, 3⟩] ∧
    (3 : Nat) - 3 = 0 := by
  exact ⟨by decide, rfl⟩

/-- Claim C3 as amended: `RegexNote._get_sections` discards a match iff its
*whole* span has zero length; every surviving match — regardless of its
group-2 length — becomes exactly one `Section` whose header span is group 1
and whose body span is group 2, in match order. -/
theorem regex_filter_whole_span (ms : List RMatch) (txt : List Char)
    (hne : ms.filter (fun m => 0 < m.e - m.s) ≠ []) :
    (regexNoteSections ms txt).map (fun s => s.body_span) =
      (ms.filter (fun m => 0 < m.e - m.s)).map
        (fun m => (⟨m.s2, m.e2⟩ : LexicalSpan)) ∧
    (regexNoteSections ms txt).map (fun s => s.header_spans) =
      (ms.filter (fun m => 0 < m.e - m.s)).map
        (fun m => [(⟨m.s1, m.e1⟩ : LexicalSpan)]) ∧
    (regexNoteSections ms txt).length =
      (ms.filter (fun m => 0 < m.e - m.s)).length := by
  unfold regexNoteSections
  simp only [List.isEmpty_iff, List.map_eq_nil_iff, List.enum_eq_nil]
  rw [if_neg hne]
  refine ⟨?_, ?_, by simp⟩
  · rw [List.map_map]
    have : ((fun s => s.body_span) ∘ fun im : Nat × RMatch =>
        sectionInit (Int.ofNat im.1) none [⟨im.2.s1, im.2.e1⟩]
          ⟨im.2.s2, im.2.e2⟩ txt) =
        (fun m : RMatch => (⟨m.s2, m.e2⟩ : LexicalSpan)) ∘ Prod.snd := rfl
    rw [this, ← List.map_map, List.enum_map_snd]
  · rw [List.map_map]
    have : ((fun s => s.header_spans) ∘ fun im : Nat × RMatch =>
        sectionInit (Int.ofNat im.1) none [⟨im.2.s1, im.2.e1⟩]
          ⟨im.2.s2, im.2.e2⟩ txt) =
        (fun m : RMatch => [(⟨m.s1, m.e1⟩ : LexicalSpan)]) ∘ Prod.snd := rfl
    rw [this, ← List.map_map, List.enum_map_snd]

/-- Witness for C3's amended theorem at one surviving match. -/
theorem regex_filter_whole_span_witness :
    (regexNoteSections [⟨0, 5, 0, 2, 3, 4⟩] "ab:cd".data).map
        (fun s => s.body_span) =
      ([(⟨0, 5, 0, 2, 3, 4⟩ : RMatch)].filter (fun m => 0 < m.e - m.s)).map
        (fun m => (⟨m.s2, m.e2⟩ : LexicalSpan)) :=
  (regex_filter_whole_span [⟨0, 5, 0, 2, 3, 4⟩] "ab:cd".data (by decide)).1

/-- Claim C8: a token whose normalized form matches the redaction-mask
pattern `[** ... **]` is classified as a mask token (sets the `mimic_`
feature) and its normalized form is rewritten to the first configured entity
replacement whose pattern matches the mask's inner text — `FIRSTNAME`,
`LASTNAME` or `DATE` in that order — or to `<UNKNOWN>` when none matches.
Mask classification precedes separator classification (`_REGEXES` tries the
mask pattern first, so whenever the mask pattern matches the feature is
`mask`, whatever the separator pattern would say), and within the entity
table the first matching pattern wins. -/
theorem decorate_mask_policy (tok : Token) (inner : List Char)
    (hm : maskMatch tok.norm = some inner) :
    ((decorate tok).mimic = "mask".data) ∧
    (firstNameMatch inner = true →
      (decorate tok).norm = "FIRSTNAME".data ∧
      (decorate tok).onto = "PERSON".data) ∧
    (firstNameMatch inner = false → lastNameMatch inner = true →
      (decorate tok).norm = "LASTNAME".data ∧
      (decorate tok).onto = "PERSON".data) ∧
    (firstNameMatch inner = false → lastNameMatch inner = false →
      dateMatch inner = true →
      (decorate tok).norm = "DATE".data ∧ (decorate tok).onto = "DATE".data) ∧
    (firstNameMatch inner = false → lastNameMatch inner = false →
      dateMatch inner = false →
      (decorate tok).norm = "<UNKNOWN>".data ∧
      (decorate tok).onto = featureNone) := by
  unfold decorate
  rw [hm]
  unfold tokenEntities entityLookup
  by_cases h1 : firstNameMatch inner
  · simp [h1, entityLookup]
  · by_cases h2 : lastNameMatch inner
    · simp [h1, h2, entityLookup]
    · by_cases h3 : dateMatch inner
      · simp [h1, h2, h3, entityLookup]
      · simp [h1, h2, h3, entityLookup]

/-- Witness for C8: the corpus example `[**First Name3 (LF) 922**]` is
rewritten to `FIRSTNAME`. -/
theorem decorate_mask_policy_witness :
    (decorate ⟨"[**First Name3 (LF) 922**]".data, [], []⟩).norm =
      "FIRSTNAME".data :=
  ((decorate_mask_policy ⟨"[**First Name3 (LF) 922**]".data, [], []⟩
    "First Name3 (LF) 922".data (by decide)).2.1 (by decide)).1

/-- Every entry of the sections dict maps an id to a section carrying that
id (the dict is built as `{sec.id: sec for sec in secs}`). -/
theorem sectionsDict_key_eq_id (secs : List Sec) :
    ∀ kv ∈ sectionsDict secs, kv.1 = kv.2.id := by
  suffices h : ∀ (l : List Sec) (m : List (Int × Sec)),
      (∀ kv ∈ m, kv.1 = kv.2.id) →
      ∀ kv ∈ l.foldl
        (fun m s =>
          if (m.map Prod.fst).contains s.id then
            m.map (fun kv => if kv.1 = s.id then (kv.1, s) else kv)
          else m ++ [(s.id, s)]) m, kv.1 = kv.2.id by
    exact h secs [] (by simp)
  intro l
  induction l with
  | nil => intro m hm kv hkv; exact hm kv hkv
  | cons s rest ih =>
      intro m hm kv hkv
      refine ih _ ?_ kv hkv
      intro kv' hkv'
      simp only [] at hkv'
      by_cases hc : ((m.map Prod.fst).contains s.id : Bool)
      · rw [if_pos hc] at hkv'
        obtain ⟨kv0, hkv0, heq⟩ := List.mem_map.mp hkv'
        by_cases hk : kv0.1 = s.id
        · rw [if_pos hk] at heq
          rw [← heq]
          exact hk
        · rw [if_neg hk] at heq
          rw [← heq]
          exact hm kv0 hkv0
      · rw [if_neg hc] at hkv'
        rcases List.mem_append.mp hkv' with h1 | h2
        · exact hm kv' h1
        · simp at h2
          rw [h2]

/-- Claim C5 counterexample: a container whose `_get_sections` yields a
section with id 0 at lexspan `[5, 10)` followed by id 1 at `[0, 5)` — as a
human/model annotator may — has `sections_ordered` return them in id order
`[5, 10), [0, 5)`, which is *not* nondecreasing lexspan order: the code
(note.py lines 387-392) sorts the dict items by key `t[0]`, the id, not by
`lexspan`. -/
theorem sections_ordered_not_lexspan :
    (sectionsOrdered
        [⟨0, "x".data, [], ⟨5, 10⟩, none⟩,
         ⟨1, "y".data, [], ⟨0, 5⟩, none⟩]).map lexspan =
      [⟨5, 10⟩, ⟨0, 5⟩] ∧
    spanLE ⟨5, 10⟩ ⟨0, 5⟩ = false := by decide

/-- Claim C5 as amended: `sections_ordered` returns the container's sections
sorted by section *id* (nondecreasing); it is `SectionContainer.__iter__`
(note.py lines 593-594) that sorts by `lexspan`. -/
theorem sections_ordered_sorted_by_id (secs : List Sec) :
    List.Pairwise (fun a c : Sec => a.id ≤ c.id) (sectionsOrdered secs) ∧
    List.Pairwise secSpanLE (containerIter secs) := by
  constructor
  · have hsorted : List.Sorted keyLE
        (List.insertionSort keyLE (sectionsDict secs)) :=
      List.sorted_insertionSort keyLE (sectionsDict secs)
    have hmem : ∀ kv ∈ List.insertionSort keyLE (sectionsDict secs),
        kv.1 = kv.2.id := by
      intro kv hkv
      exact sectionsDict_key_eq_id secs kv
        ((List.perm_insertionSort keyLE (sectionsDict secs)).mem_iff.mp hkv)
    rw [sectionsOrdered, List.pairwise_map]
    refine hsorted.imp_of_mem ?_
    intro a c ha hc h
    rw [← hmem a ha, ← hmem c hc]
    exact h
  · exact List.sorted_insertionSort secSpanLE _

/-- Claim C9: every section produced by a regex-category matcher has header
and body spans inside `[0, len(note_text)]`.  Matching runs on
`self.text + '\n\n'` (length `len + 2`); every configured pattern
(regexnote.py) forces at least two characters of terminator after the body
group inside the whole match (`termMin ≥ 2`), so a match's group spans end at
or before `len`, and the whole-note fallback section spans `[0, len)` — hence
slicing the note text at any section span never indexes out of range. -/
theorem regex_sections_in_bounds (sh : RegexShape) (hsh : sh ∈ mimicShapes)
    (ms : List RMatch) (txt : List Char)
    (hval : ∀ m ∈ ms, finditerValid sh (txt.length + 2) m) :
    ∀ sec ∈ regexNoteSections ms txt,
      (∀ hs ∈ sec.header_spans, hs.b ≤ hs.e ∧ hs.e ≤ txt.length) ∧
      sec.body_span.b ≤ sec.body_span.e ∧ sec.body_span.e ≤ txt.length := by
  have htm : 2 ≤ sh.termMin := by
    simp only [mimicShapes, dischargeHeaderShape, dischargeParaShape,
      nursingParaShape, echoParaShape, physicianHeaderShape,
      radiologyParaShape, consultHeaderShape, List.mem_cons,
      List.not_mem_nil, or_false] at hsh
    rcases hsh with rfl | rfl | rfl | rfl | rfl | rfl | rfl <;> decide
  intro sec hsec
  unfold regexNoteSections at hsec
  by_cases hfe : ms.filter (fun m => 0 < m.e - m.s) = []
  · rw [hfe] at hsec
    simp [noteGetSections] at hsec
    subst hsec
    exact ⟨by simp [sectionInit], by simp [sectionInit], by simp [sectionInit]⟩
  · simp only [List.isEmpty_iff, List.map_eq_nil_iff, List.enum_eq_nil] at hsec
    rw [if_neg hfe] at hsec
    obtain ⟨⟨i, m⟩, him, hsec⟩ := List.mem_map.mp hsec
    have hm2 : m ∈ ms.filter (fun mm => 0 < mm.e - mm.s) := by
      have hh := List.mem_enum him
      rw [hh.2]
      exact List.getElem_mem hh.1
    have hv : finditerValid sh (txt.length + 2) m :=
      hval m (List.mem_filter.mp hm2).1
    obtain ⟨h1, h2, h3, h4, h5, h6⟩ := hv
    subst hsec
    refine ⟨?_, ?_, ?_⟩
    · intro hs hhs
      simp [sectionInit] at hhs
      subst hhs
      constructor
      · exact h2
      · simp; omega
    · exact h4
    · simp [sectionInit]; omega

/-- Witness for C9: a valid discharge-summary-shaped match on the ten-
character text `"History:ab"` yields a section whose body span ends inside
the text. -/
theorem regex_sections_in_bounds_witness :
    (sectionInit 0 none [⟨0, 3⟩] ⟨5, 10⟩
      "History:ab".data).body_span.e ≤ "History:ab".data.length :=
  (regex_sections_in_bounds dischargeHeaderShape (by decide)
    [⟨0, 12, 0, 3, 5, 10⟩] "History:ab".data (by decide)
    (sectionInit 0 none [⟨0, 3⟩] ⟨5, 10⟩ "History:ab".data)
    (by decide)).2.2

/-- Well-formed spans sorted by `(begin, end)` and pairwise non-overlapping
sit in left-to-right chain position pairwise. -/
theorem chainRel_of_sorted_disjoint (l : List LexicalSpan)
    (hwf : ∀ s ∈ l, s.b ≤ s.e)
    (hdisj : List.Pairwise (fun a c => ¬ overlaps a c) l)
    (hsort : List.Pairwise spanLEP l) :
    List.Pairwise chainRel l := by
  refine (hdisj.and hsort).imp_of_mem ?_
  intro a c _ hc h
  have hwc : c.b ≤ c.e := hwf c hc
  obtain ⟨hno, hle⟩ := h
  unfold overlaps at hno
  unfold spanLEP spanLE at hle
  simp only [Bool.or_eq_true, Bool.and_eq_true, decide_eq_true_eq,
    beq_iff_eq] at hle
  unfold chainRel
  omega

/-- The combined specification of `gapsWalk` on a chain of well-formed spans
lying beyond the cursor: together with the input spans the emitted gaps cover
`[p, L)`, every gap is a non-empty span inside `[p, L]`, gaps never overlap
an input span, and gaps are pairwise non-overlapping. -/
theorem gapsWalk_spec (L : Nat) :
    ∀ (l : List LexicalSpan) (p : Nat),
    List.Pairwise chainRel l →
    (∀ s ∈ l, s.b ≤ s.e ∧ s.e ≤ L) →
    (∀ s ∈ l, p ≤ s.b) →
    (∀ i, p ≤ i → i < L →
      (∃ s ∈ l, memSpan i s) ∨ (∃ g ∈ gapsWalk p L l, memSpan i g)) ∧
    (∀ g ∈ gapsWalk p L l, p ≤ g.b ∧ g.b < g.e ∧ g.e ≤ L) ∧
    (∀ g ∈ gapsWalk p L l, ∀ s ∈ l, ¬ overlaps g s) ∧
    List.Pairwise (fun a c => ¬ overlaps a c) (gapsWalk p L l) := by
  intro l
  induction l with
  | nil =>
      intro p _ _ _
      refine ⟨?_, ?_, ?_, ?_⟩
      · intro i hpi hiL
        right
        refine ⟨⟨p, L⟩, ?_, hpi, hiL⟩
        simp only [gapsWalk]
        rw [if_pos (Nat.lt_of_le_of_lt hpi hiL)]
        exact List.mem_singleton.mpr rfl
      · intro g hg
        simp only [gapsWalk] at hg
        by_cases hpL : p < L
        · rw [if_pos hpL] at hg
          rw [List.mem_singleton.mp hg]
          exact ⟨Nat.le_refl p, hpL, Nat.le_refl L⟩
        · rw [if_neg hpL] at hg
          exact absurd hg (List.not_mem_nil g)
      · intro g _ s hs
        exact absurd hs (List.not_mem_nil s)
      · simp only [gapsWalk]
        by_cases hpL : p < L
        · rw [if_pos hpL]; exact List.pairwise_singleton _ _
        · rw [if_neg hpL]; exact List.Pairwise.nil
  | cons s rest ih =>
      intro p hch hwf hlb
      have hs_rest : ∀ s' ∈ rest, s.e ≤ s'.b := by
        intro s' hs'
        exact (List.pairwise_cons.mp hch).1 s' hs'
      have hch_rest := (List.pairwise_cons.mp hch).2
      have hwf_rest : ∀ s' ∈ rest, s'.b ≤ s'.e ∧ s'.e ≤ L :=
        fun s' hs' => hwf s' (List.mem_cons_of_mem s hs')
      have hwfs := hwf s (List.mem_cons_self s rest)
      have hpb : p ≤ s.b := hlb s (List.mem_cons_self s rest)
      obtain ⟨ihcov, ihbnd, ihdis, ihpar⟩ :=
        ih s.e hch_rest hwf_rest hs_rest
      have hwalk : gapsWalk p L (s :: rest) =
          (if p < s.b then [⟨p, s.b⟩] else []) ++ gapsWalk s.e L rest := rfl
      refine ⟨?_, ?_, ?_, ?_⟩
      · intro i hpi hiL
        by_cases h1 : i < s.b
        · right
          refine ⟨⟨p, s.b⟩, ?_, hpi, h1⟩
          rw [hwalk, if_pos (Nat.lt_of_le_of_lt hpi h1)]
          exact List.mem_append_left _ (List.mem_singleton.mpr rfl)
        · by_cases h2 : i < s.e
          · exact Or.inl ⟨s, List.mem_cons_self s rest,
              Nat.le_of_not_lt h1, h2⟩
          · rcases ihcov i (Nat.le_of_not_lt h2) hiL with
              ⟨s', hs', hm⟩ | ⟨g, hg, hm⟩
            · exact Or.inl ⟨s', List.mem_cons_of_mem s hs', hm⟩
            · refine Or.inr ⟨g, ?_, hm⟩
              rw [hwalk]
              exact List.mem_append_right _ hg
      · intro g hg
        rw [hwalk] at hg
        rcases List.mem_append.mp hg with h1 | h2
        · by_cases hps : p < s.b
          · rw [if_pos hps] at h1
            rw [List.mem_singleton.mp h1]
            exact ⟨Nat.le_refl p, hps, Nat.le_trans hwfs.1 hwfs.2⟩
          · rw [if_neg hps] at h1
            exact absurd h1 (List.not_mem_nil g)
        · obtain ⟨hb, hbe, heL⟩ := ihbnd g h2
          exact ⟨Nat.le_trans (Nat.le_trans hpb hwfs.1) hb, hbe, heL⟩
      · intro g hg s' hs'
        rw [hwalk] at hg
        rcases List.mem_append.mp hg with h1 | h2
        · have hgeq : g = ⟨p, s.b⟩ := by
            by_cases hps : p < s.b
            · rw [if_pos hps] at h1; exact List.mem_singleton.mp h1
            · rw [if_neg hps] at h1; exact absurd h1 (List.not_mem_nil g)
          rcases List.mem_cons.mp hs' with rfl | hmem
          · rw [hgeq]
            unfold overlaps
            dsimp only
            omega
          · have := hs_rest s' hmem
            have := (hwf_rest s' hmem).1
            rw [hgeq]
            unfold overlaps
            dsimp only
            omega
        · rcases List.mem_cons.mp hs' with rfl | hmem
          · have hb := (ihbnd g h2).1
            unfold overlaps
            omega
          · exact ihdis g h2 s' hmem
      · rw [hwalk]
        rw [List.pairwise_append]
        refine ⟨?_, ihpar, ?_⟩
        · by_cases hps : p < s.b
          · rw [if_pos hps]; exact List.pairwise_singleton _ _
          · rw [if_neg hps]; exact List.Pairwise.nil
        · intro g1 hg1 g2 hg2
          have hgeq : g1 = ⟨p, s.b⟩ := by
            by_cases hps : p < s.b
            · rw [if_pos hps] at hg1; exact List.mem_singleton.mp hg1
            · rw [if_neg hps] at hg1; exact absurd hg1 (List.not_mem_nil g1)
          have hb := (ihbnd g2 hg2).1
          rw [hgeq]
          unfold overlaps
          dsimp only
          omega

/-- Overlap is symmetric. -/
theorem overlaps_symm {a c : LexicalSpan} (h : overlaps a c) : overlaps c a :=
  ⟨h.2, h.1⟩

/-- The specification of `gaps` on well-formed, pairwise non-overlapping
spans: the spans plus the gaps cover `[0, L)`, every gap is a non-empty span
ending at or before `L`, gaps never overlap an input span, and gaps are
pairwise non-overlapping. -/
theorem gaps_spec (spans : List LexicalSpan) (L : Nat)
    (hwf : ∀ s ∈ spans, s.b ≤ s.e ∧ s.e ≤ L)
    (hdisj : List.Pairwise (fun a c => ¬ overlaps a c) spans) :
    (∀ i, i < L →
      (∃ s ∈ spans, memSpan i s) ∨ (∃ g ∈ gaps spans L, memSpan i g)) ∧
    (∀ g ∈ gaps spans L, g.b < g.e ∧ g.e ≤ L) ∧
    (∀ g ∈ gaps spans L, ∀ s ∈ spans, ¬ overlaps g s) ∧
    List.Pairwise (fun a c => ¬ overlaps a c) (gaps spans L) := by
  have hperm : (List.insertionSort spanLEP spans).Perm spans :=
    List.perm_insertionSort spanLEP spans
  have hwf' : ∀ s ∈ List.insertionSort spanLEP spans, s.b ≤ s.e ∧ s.e ≤ L :=
    fun s hs => hwf s (hperm.mem_iff.mp hs)
  have hdisj' : List.Pairwise (fun a c => ¬ overlaps a c)
      (List.insertionSort spanLEP spans) :=
    (hperm.pairwise_iff (fun h ho => h (overlaps_symm ho))).mpr hdisj
  have hsort : List.Pairwise spanLEP (List.insertionSort spanLEP spans) :=
    List.sorted_insertionSort spanLEP spans
  have hch := chainRel_of_sorted_disjoint _ (fun s hs => (hwf' s hs).1)
    hdisj' hsort
  obtain ⟨hcov, hbnd, hdis, hpar⟩ := gapsWalk_spec L
    (List.insertionSort spanLEP spans) 0 hch hwf' (fun s _ => Nat.zero_le _)
  refine ⟨?_, ?_, ?_, hpar⟩
  · intro i hiL
    rcases hcov i (Nat.zero_le i) hiL with ⟨s, hs, hm⟩ | hgap
    · exact Or.inl ⟨s, hperm.mem_iff.mp hs, hm⟩
    · exact Or.inr hgap
  · intro g hg
    exact ⟨(hbnd g hg).2.1, (hbnd g hg).2.2⟩
  · intro g hg s hs
    exact hdis g hg s (hperm.mem_iff.mpr hs)

/-- Claim C1 counterexample: with `filter_empty = True`, a whitespace-only
gap is dropped (note.py lines 631-632), so the union of the resulting
lexspans does *not* equal `[0, len(note_text))`.  Note text `"A \nB"` (length
4, right-stripped) with delegate sections at `[0, 1)` and `[3, 4)` leaves the
whitespace gap `[1, 3)`, whose synthetic section `is_empty` — the output
lexspans are `[0, 1)` and `[3, 4)` and offset 1 is uncovered. -/
theorem gap_sections_filter_empty_uncovered :
    (gapSections
        [⟨0, "a".data, [], ⟨0, 1⟩, none⟩, ⟨1, "c".data, [], ⟨3, 4⟩, none⟩]
        "A \nB".data true).map lexspan = [⟨0, 1⟩, ⟨3, 4⟩] ∧
    ¬ memSpan 1 ⟨0, 1⟩ ∧ ¬ memSpan 1 ⟨3, 4⟩ ∧
    1 < "A \nB".data.length := by decide

/-- Claim C1 as amended: for a delegate with at least one section, all
sections well-formed inside `[0, len(note_text))` and pairwise
non-overlapping, the gap-filled output is always pairwise non-overlapping
with lexspans inside the text; when `filter_empty` is false its lexspans
cover `[0, len(note_text))` exactly (with `filter_empty` set, whitespace-only
gaps are omitted and may stay uncovered, as the counterexample shows). -/
theorem gap_sections_partition (del : List Sec) (txt : List Char) (fe : Bool)
    (hne : del ≠ [])
    (hwf : ∀ s ∈ del,
      (lexspan s).b ≤ (lexspan s).e ∧ (lexspan s).e ≤ txt.length)
    (hdisj : List.Pairwise
      (fun a c => ¬ overlaps (lexspan a) (lexspan c)) del) :
    List.Pairwise (fun a c => ¬ overlaps (lexspan a) (lexspan c))
      (gapSections del txt fe) ∧
    (∀ s ∈ gapSections del txt fe,
      (lexspan s).b ≤ (lexspan s).e ∧ (lexspan s).e ≤ txt.length) ∧
    (fe = false → ∀ i, i < txt.length →
      ∃ s ∈ gapSections del txt fe, memSpan i (lexspan s)) := by
  have hdw : ∀ sp ∈ del.map lexspan, sp.b ≤ sp.e ∧ sp.e ≤ txt.length := by
    intro sp hsp
    obtain ⟨s, hs, rfl⟩ := List.mem_map.mp hsp
    exact hwf s hs
  have hdd : List.Pairwise (fun a c => ¬ overlaps a c) (del.map lexspan) :=
    List.pairwise_map.mpr hdisj
  obtain ⟨gcov, gbnd, gdis, gpar⟩ :=
    gaps_spec (del.map lexspan) txt.length hdw hdd
  have hout : (gapSections del txt fe).map lexspan =
      (gapMerged del txt fe).map lexspan := by
    unfold gapSections
    rw [if_neg (by simpa [List.isEmpty_iff] using hne)]
    rw [List.map_map]
    rw [show (lexspan ∘ fun is : Nat × Sec =>
        { is.2 with original_id := some is.2.id, id := Int.ofNat is.1 }) =
        lexspan ∘ Prod.snd from rfl]
    rw [← List.map_map, List.enum_map_snd]
  have hmp : ((gapMerged del txt fe).map lexspan).Perm
      (del.map lexspan ++ (gapSecList del txt fe).map lexspan) := by
    unfold gapMerged
    rw [← List.map_append]
    exact (List.perm_insertionSort secSpanLE _).map lexspan
  have hsubl : ((gapSecList del txt fe).map lexspan).Sublist
      (gaps (del.map lexspan) txt.length) := by
    unfold gapSecList
    have h1 := (List.filter_sublist (p := fun s => !(fe && isEmptySec s txt))
      ((gaps (del.map lexspan) txt.length).map (mkGapSec txt))).map lexspan
    rw [List.map_map, show (lexspan ∘ mkGapSec txt) = id from rfl,
      List.map_id] at h1
    exact h1
  have hbig : List.Pairwise (fun a c => ¬ overlaps a c)
      (del.map lexspan ++ gaps (del.map lexspan) txt.length) := by
    rw [List.pairwise_append]
    exact ⟨hdd, gpar,
      fun a ha g hg ho => gdis g hg a ha (overlaps_symm ho)⟩
  refine ⟨?_, ?_, ?_⟩
  · refine (List.pairwise_map (R := fun x y => ¬ overlaps x y)
      (f := lexspan)).mp ?_
    rw [hout]
    refine (hmp.pairwise_iff (fun h ho => h (overlaps_symm ho))).mpr ?_
    exact hbig.sublist (hsubl.append_left (del.map lexspan))
  · intro s hs
    have hmem : lexspan s ∈ (gapSections del txt fe).map lexspan :=
      List.mem_map_of_mem lexspan hs
    rw [hout] at hmem
    rcases List.mem_append.mp (hmp.mem_iff.mp hmem) with h1 | h2
    · exact hdw (lexspan s) h1
    · have := gbnd (lexspan s) (hsubl.subset h2)
      exact ⟨Nat.le_of_lt this.1, this.2⟩
  · intro hfe i hiL
    subst hfe
    have hglist : (gapSecList del txt false).map lexspan =
        gaps (del.map lexspan) txt.length := by
      unfold gapSecList
      rw [show (fun s => !(false && isEmptySec s txt)) =
        (fun _ : Sec => true) from rfl]
      rw [List.filter_true, List.map_map,
        show (lexspan ∘ mkGapSec txt) = id from rfl, List.map_id]
    have hcover : ∃ sp ∈ del.map lexspan ++
        (gapSecList del txt false).map lexspan, memSpan i sp := by
      rw [hglist]
      rcases gcov i hiL with ⟨sp, hsp, hm⟩ | ⟨g, hg, hm⟩
      · exact ⟨sp, List.mem_append_left _ hsp, hm⟩
      · exact ⟨g, List.mem_append_right _ hg, hm⟩
    obtain ⟨sp, hsp, hm⟩ := hcover
    have : sp ∈ (gapSections del txt false).map lexspan := by
      rw [hout]
      exact hmp.mem_iff.mpr hsp
    obtain ⟨s, hs, rfl⟩ := List.mem_map.mp this
    exact ⟨s, hs, hm⟩

/-- Witness for C1's amended theorem at a one-section delegate on the text
`"ab"`: the first output section's lexspan `[0, 1)` is well-formed and inside
the text. -/
theorem gap_sections_partition_witness :
    (lexspan (⟨0, "x".data, [], ⟨0, 1⟩, some 7⟩ : Sec)).b ≤
      (lexspan (⟨0, "x".data, [], ⟨0, 1⟩, some 7⟩ : Sec)).e ∧
    (lexspan (⟨0, "x".data, [], ⟨0, 1⟩, some 7⟩ : Sec)).e ≤
      "ab".data.length :=
  (gap_sections_partition [⟨7, "x".data, [], ⟨0, 1⟩, none⟩] "ab".data false
    (by decide) (by decide) (by decide)).2.1
    ⟨0, "x".data, [], ⟨0, 1⟩, some 7⟩ (by decide)

/-- Claim C4: after gap-filling (note.py lines 636-640) the section ids are
exactly `0..n-1` in the sorted lexspan order, each output section's
`original_id` is the id that very section carried before renumbering (at the
same position of the sorted pre-renumber list), and the multiset of
`original_id`s is exactly the delegate ids plus `-1` for each synthetic gap
section — so cloned sections keep their delegate id in `original_id`. -/
theorem gap_sections_renumber (del : List Sec) (txt : List Char) (fe : Bool)
    (hne : del ≠ []) :
    (gapSections del txt fe).map Sec.id =
      (List.range (gapSections del txt fe).length).map Int.ofNat ∧
    (∀ i (h1 : i < (gapSections del txt fe).length)
        (h2 : i < (gapMerged del txt fe).length),
      ((gapSections del txt fe).get ⟨i, h1⟩).original_id =
        some ((gapMerged del txt fe).get ⟨i, h2⟩).id) ∧
    ((gapSections del txt fe).map Sec.original_id).Perm
      (del.map (fun s => some s.id) ++
        (gapSecList del txt fe).map (fun s => some s.id)) := by
  have hred : gapSections del txt fe =
      (gapMerged del txt fe).enum.map
        (fun is =>
          { is.2 with original_id := some is.2.id, id := Int.ofNat is.1 }) := by
    unfold gapSections
    rw [if_neg (by simpa [List.isEmpty_iff] using hne)]
  refine ⟨?_, ?_, ?_⟩
  · rw [hred, List.map_map]
    rw [show (Sec.id ∘ fun is : Nat × Sec =>
        { is.2 with original_id := some is.2.id, id := Int.ofNat is.1 }) =
        (Int.ofNat ∘ Prod.fst) from rfl]
    rw [← List.map_map, List.enum_map_fst, List.length_map,
      List.enum_length]
  · intro i h1 h2
    rw [List.get_of_eq hred ⟨i, h1⟩]
    rw [List.get_eq_getElem, List.get_eq_getElem, List.getElem_map,
      List.getElem_enum]
  · rw [hred, List.map_map]
    rw [show (Sec.original_id ∘ fun is : Nat × Sec =>
        { is.2 with original_id := some is.2.id, id := Int.ofNat is.1 }) =
        ((fun s : Sec => some s.id) ∘ Prod.snd) from rfl]
    rw [← List.map_map, List.enum_map_snd]
    have hp := (List.perm_insertionSort secSpanLE
      (del ++ gapSecList del txt fe)).map (fun s : Sec => some s.id)
    rw [List.map_append] at hp
    exact hp

/-- Witness for C4 at a one-section delegate with id 7 on the text `"ab"`:
the renumbered ids are `[0, 1]`. -/
theorem gap_sections_renumber_witness :
    (gapSections [⟨7, "x".data, [], ⟨0, 1⟩, none⟩] "ab".data false).map
        Sec.id =
      (List.range
        (gapSections [⟨7, "x".data, [], ⟨0, 1⟩, none⟩] "ab".data
          false).length).map Int.ofNat :=
  (gap_sections_renumber [⟨7, "x".data, [], ⟨0, 1⟩, none⟩] "ab".data false
    (by decide)).1

end Mimic
